import Mathlib

/-!
Shallow embedding of the IoTAir dashboard server (server.js): a CSV-backed
user store with session authentication, role-gated admin routes and derived
sensor-feed views.  Request handlers are modelled as pure functions from the
request data, the session and the in-memory store to an HTTP status, a JSON
body and the resulting store.  JSON body fields are `Option String` (`none`
for an absent field); the JavaScript falsiness test `!x` on such a field is
`falsy`.  bcrypt.hash and bcrypt.compare are abstract parameters; writeCSV
is modelled as succeeding (its failure branch is file I/O).
-/

/-- JavaScript falsiness of an optional string field: absent or empty. -/
def falsy : Option String → Bool
  | none => true
  | some s => s == ""

/-- Value of an optional string field, defaulting to the empty string. -/
def strVal (o : Option String) : String := o.getD ""

/-- One row of users.csv, columns name,email,password,role; the password
column holds the bcrypt hash. -/
structure UserRec where
  name : String
  email : String
  password : String
  role : String
  deriving DecidableEq

/-- The snapshot req.session.user stored at login: name, email and role. -/
structure SessionUser where
  name : String
  email : String
  role : String
  deriving DecidableEq

/-- A JSON response body carrying either a message or an error field. -/
inductive MsgBody where
  | msg : String → MsgBody
  | err : String → MsgBody
  deriving DecidableEq

/-- Outcome of a store-mutating handler: HTTP status, body, resulting store. -/
structure MutResult where
  status : Nat
  body : MsgBody
  store : List UserRec
  deriving DecidableEq

/-- Body of a POST /api/register request; the role field may be present in
the JSON body but the handler never reads it. -/
structure RegisterReq where
  name : Option String
  email : Option String
  password : Option String
  role : Option String
  deriving DecidableEq

/-- POST /api/register, server.js lines 174-221. -/
def register (hash : String → String) (req : RegisterReq) (users : List UserRec) : MutResult :=
  if falsy req.name || falsy req.email || falsy req.password then
    ⟨400, .err "All fields are required", users⟩
  else if (strVal req.password).length < 6 then
    ⟨400, .err "Password must be at least 6 characters", users⟩
  else if users.any (fun u => u.email == strVal req.email) then
    ⟨400, .err "Email already registered", users⟩
  else
    ⟨200, .msg "Registration successful",
      users ++ [⟨strVal req.name, strVal req.email, hash (strVal req.password), "user"⟩]⟩

/-- Body of a successful or failed POST /api/login response. -/
inductive LoginBody where
  | ok : String → SessionUser → LoginBody
  | err : String → LoginBody
  deriving DecidableEq

/-- Outcome of POST /api/login: status, body and the session afterwards. -/
structure LoginResult where
  status : Nat
  body : LoginBody
  session : Option SessionUser
  deriving DecidableEq

/-- POST /api/login, lines 224-272, parametrised by bcrypt.compare; a failed
login leaves the session as it was. -/
def login (compare : String → String → Bool) (email password : Option String)
    (users : List UserRec) (sess : Option SessionUser) : LoginResult :=
  if falsy email || falsy password then
    ⟨400, .err "Email and password are required", sess⟩
  else
    match users.find? (fun u => u.email == strVal email) with
    | none => ⟨401, .err "Invalid email or password", sess⟩
    | some user =>
      if compare (strVal password) user.password then
        ⟨200, .ok "Login successful" ⟨user.name, user.email, user.role⟩,
          some ⟨user.name, user.email, user.role⟩⟩
      else ⟨401, .err "Invalid email or password", sess⟩

/-- The isAuthenticated middleware, lines 152-159: a session user exists. -/
def isAuthenticated (sess : Option SessionUser) : Bool := sess.isSome

/-- The isAdmin middleware, lines 162-169: a session user exists and its
cached role is admin; it never consults the users store. -/
def isAdminSess (sess : Option SessionUser) : Bool :=
  match sess with
  | some u => u.role == "admin"
  | none => false

/-- The two gates as chained on every admin route: isAuthenticated rejects a
missing session with 401, then isAdmin rejects a non-admin session with 403;
otherwise the handler runs with the session user. -/
def adminGate (sess : Option SessionUser) : Except (Nat × String) SessionUser :=
  match sess with
  | none => .error (401, "Not authenticated")
  | some u => if u.role == "admin" then .ok u else .error (403, "Admin privileges required")

/-- A user as serialised by GET /api/users: name, email, role and nothing
else. -/
structure SafeUser where
  name : String
  email : String
  role : String
  deriving DecidableEq

/-- Outcome of GET /api/users. -/
structure UsersResult where
  status : Nat
  users : Option (List SafeUser)
  error : Option String
  deriving DecidableEq

/-- GET /api/users, lines 351-368: admin-gated; maps each record to its
name, email and role, dropping the password column. -/
def getUsers (sess : Option SessionUser) (users : List UserRec) : UsersResult :=
  match adminGate sess with
  | .error (st, e) => ⟨st, none, some e⟩
  | .ok _ => ⟨200, some (users.map (fun u => ⟨u.name, u.email, u.role⟩)), none⟩

/-- Body of a POST /api/users/add request. -/
structure AddUserReq where
  name : Option String
  email : Option String
  password : Option String
  role : Option String
  deriving DecidableEq

/-- POST /api/users/add, lines 371-416: admin-gated; the stored role is the
supplied one, defaulting to user only when the field is absent or empty. -/
def addUser (hash : String → String) (sess : Option SessionUser) (req : AddUserReq)
    (users : List UserRec) : MutResult :=
  match adminGate sess with
  | .error (st, e) => ⟨st, .err e, users⟩
  | .ok _ =>
    if falsy req.name || falsy req.email || falsy req.password then
      ⟨400, .err "All fields are required", users⟩
    else if (strVal req.password).length < 6 then
      ⟨400, .err "Password must be at least 6 characters", users⟩
    else if users.any (fun u => u.email == strVal req.email) then
      ⟨400, .err "Email already exists", users⟩
    else
      ⟨200, .msg "User added successfully",
        users ++ [⟨strVal req.name, strVal req.email, hash (strVal req.password),
          if falsy req.role then "user" else strVal req.role⟩]⟩

/-- Replace the role of the record at a given position, users[i].role = r. -/
def setRoleAt (r : String) : Nat → List UserRec → List UserRec
  | _, [] => []
  | 0, u :: us => ⟨u.name, u.email, u.password, r⟩ :: us
  | n + 1, u :: us => u :: setRoleAt r n us

/-- PUT /api/users/:email, lines 419-455: admin-gated role update; the new
role must be user or admin, and the target email must exist. -/
def updateRole (sess : Option SessionUser) (emailParam : String) (role : Option String)
    (users : List UserRec) : MutResult :=
  match adminGate sess with
  | .error (st, e) => ⟨st, .err e, users⟩
  | .ok _ =>
    if falsy role || !(strVal role == "user" || strVal role == "admin") then
      ⟨400, .err "Invalid role", users⟩
    else
      match users.findIdx? (fun u => u.email == emailParam) with
      | none => ⟨404, .err "User not found", users⟩
      | some i => ⟨200, .msg "User role updated successfully", setRoleAt (strVal role) i users⟩

/-- DELETE /api/users/:email, lines 458-492: admin-gated; the self-delete
check on the session email runs before the store is read. -/
def deleteUser (sess : Option SessionUser) (emailParam : String)
    (users : List UserRec) : MutResult :=
  match adminGate sess with
  | .error (st, e) => ⟨st, .err e, users⟩
  | .ok u =>
    if u.email == emailParam then
      ⟨400, .err "Cannot delete your own account", users⟩
    else
      let filtered := users.filter (fun x => !(x.email == emailParam))
      if filtered.length == users.length then ⟨404, .err "User not found", users⟩
      else ⟨200, .msg "User deleted successfully", filtered⟩

/-- Numeric value of a list of decimal digit characters, most significant
first. -/
def digitsVal (ds : List Char) : Nat := ds.foldl (fun a c => 10 * a + (c.toNat - 48)) 0

/-- Whether a character list starts with the given character. -/
def headIs (c : Char) : List Char → Bool
  | d :: _ => d == c
  | [] => false

/-- Exponent consumed by parseFloat after the mantissa: e or E, an optional
sign and digits; 0 when absent or when no digit follows the marker. -/
def expVal : List Char → Int
  | [] => 0
  | c :: rest =>
    if c == 'e' || c == 'E' then
      let eneg := headIs '-' rest
      let rest1 := if headIs '-' rest || headIs '+' rest then rest.tail else rest
      let eds := rest1.takeWhile Char.isDigit
      if eds.isEmpty then 0
      else if eneg then -(digitsVal eds : Int) else (digitsVal eds : Int)
    else 0

/-- JavaScript parseFloat modelled over the rationals: skip leading
whitespace, take an optional sign, then the longest prefix of the form
digits [. digits] [e|E [sign] digits]; `none` models NaN, returned when no
mantissa digit is consumed.  Infinity literals are not modelled. -/
def jsParseFloat? (s : String) : Option Rat :=
  let cs0 := s.data.dropWhile Char.isWhitespace
  let neg := headIs '-' cs0
  let cs1 := if headIs '-' cs0 || headIs '+' cs0 then cs0.tail else cs0
  let intDs := cs1.takeWhile Char.isDigit
  let cs2 := cs1.dropWhile Char.isDigit
  let fracDs := if headIs '.' cs2 then cs2.tail.takeWhile Char.isDigit else []
  let cs3 := if headIs '.' cs2 then cs2.tail.dropWhile Char.isDigit else cs2
  if intDs.isEmpty && fracDs.isEmpty then none
  else
    let mant : Rat := (digitsVal (intDs ++ fracDs) : Rat) / (10 : Rat) ^ fracDs.length
    let signed := if neg then -mant else mant
    some (signed * (10 : Rat) ^ expVal cs3)

/-- The coercion parseFloat(x) || 0 applied to an optional field: a missing
field, NaN and a parsed zero all yield 0. -/
def jsNum : Option String → Rat
  | none => 0
  | some s => (jsParseFloat? s).getD 0

/-- Spec-side notion of a numeric string: the whole string is a decimal
literal, an optional sign, digits with at most one point and at least one
digit, and an optional exponent, with nothing before or after. -/
def allDigits (cs : List Char) : Bool := cs.all Char.isDigit

/-- Full-string check of an exponent suffix: empty, or e/E, an optional sign
and at least one digit running to the end. -/
def isExpPart : List Char → Bool
  | [] => true
  | c :: rest =>
    (c == 'e' || c == 'E') &&
      (match rest with
       | '-' :: ds => !ds.isEmpty && allDigits ds
       | '+' :: ds => !ds.isEmpty && allDigits ds
       | ds => !ds.isEmpty && allDigits ds)

/-- Full-string check of a mantissa followed by an exponent suffix. -/
def isMantissaExp (cs : List Char) : Bool :=
  let intDs := cs.takeWhile Char.isDigit
  let rest := cs.dropWhile Char.isDigit
  match rest with
  | '.' :: rest2 =>
    let fracDs := rest2.takeWhile Char.isDigit
    (!intDs.isEmpty || !fracDs.isEmpty) && isExpPart (rest2.dropWhile Char.isDigit)
  | _ => !intDs.isEmpty && isExpPart rest

/-- Whether the whole string is a numeric literal. -/
def isNumericLit (s : String) : Bool :=
  match s.data with
  | '-' :: cs => isMantissaExp cs
  | '+' :: cs => isMantissaExp cs
  | cs => isMantissaExp cs

/-- One row of feeds.csv, columns created_at,entry_id,field1,field2,field3,
as parsed strings; `none` models a missing field. -/
structure FeedRec where
  created_at : Option String
  entry_id : Option String
  field1 : Option String
  field2 : Option String
  field3 : Option String
  deriving DecidableEq

/-- A reading after the numeric coercion of GET /api/sensors. -/
structure ProcessedFeed where
  timestamp : Option String
  entry_id : Option String
  field1 : Rat
  field2 : Rat
  field3 : Rat
  deriving DecidableEq

/-- The per-row coercion of GET /api/sensors, lines 315-321. -/
def processFeed (f : FeedRec) : ProcessedFeed :=
  ⟨f.created_at, f.entry_id, jsNum f.field1, jsNum f.field2, jsNum f.field3⟩

/-- The latest object of the GET /api/sensors response: the three fields and
the timestamp of the most recent reading. -/
structure LatestOut where
  field1 : Rat
  field2 : Rat
  field3 : Rat
  timestamp : Option String
  deriving DecidableEq

/-- Payload of a successful GET /api/sensors response. -/
structure SensorsOut where
  latest : Option LatestOut
  history : List ProcessedFeed
  recent : List ProcessedFeed
  deriving DecidableEq

/-- Outcome of GET /api/sensors; out is none on the 401 rejection. -/
structure SensorsResult where
  status : Nat
  out : Option SensorsOut
  deriving DecidableEq

/-- GET /api/sensors, lines 300-346: session-gated; latest is the last
processed row, history is slice(-20), recent is slice(-10).reverse(). -/
def getSensors (sess : Option SessionUser) (feeds : List FeedRec) : SensorsResult :=
  if isAuthenticated sess then
    if feeds.isEmpty then ⟨200, some ⟨none, [], []⟩⟩
    else
      let p := feeds.map processFeed
      ⟨200, some ⟨(p.getLast?).map (fun l => ⟨l.field1, l.field2, l.field3, l.timestamp⟩),
        p.drop (p.length - 20), (p.drop (p.length - 10)).reverse⟩⟩
  else ⟨401, none⟩

/-- One store-mutating request against the users store. -/
inductive StoreOp where
  | reg : RegisterReq → StoreOp
  | add : Option SessionUser → AddUserReq → StoreOp
  | upd : Option SessionUser → String → Option String → StoreOp
  | del : Option SessionUser → String → StoreOp

/-- The users store left behind by one request. -/
def applyOp (hash : String → String) (users : List UserRec) : StoreOp → List UserRec
  | .reg req => (register hash req users).store
  | .add sess req => (addUser hash sess req users).store
  | .upd sess e r => (updateRole sess e r users).store
  | .del sess e => (deleteUser sess e users).store

/-- Every stored role lies in the documented enum. -/
def rolesOk (users : List UserRec) : Prop :=
  ∀ u ∈ users, u.role = "user" ∨ u.role = "admin"

instance (users : List UserRec) : Decidable (rolesOk users) :=
  inferInstanceAs (Decidable (∀ u ∈ users, u.role = "user" ∨ u.role = "admin"))

/-- Side condition under which a request cannot escape the role enum: an add
request must carry no role, an empty one, or user or admin. -/
def opRoleOk : StoreOp → Bool
  | .add _ req => falsy req.role || strVal req.role == "user" || strVal req.role == "admin"
  | _ => true

/-- A concrete feeds store of 25 readings, used to instantiate the
windowing property. -/
def feeds25 : List FeedRec :=
  (List.range 25).map (fun i => ⟨some "2024-01-01", some (toString i), some (toString i), some "7.25", none⟩)

/-! Helper lemmas about comma splitting and joining. -/

theorem takeWhile_append_all (p : Char → Bool) (l t : List Char) (hl : l.all p = true) :
    (l ++ t).takeWhile p = l ++ t.takeWhile p := by
  induction l with
  | nil => simp
  | cons c rest ih =>
    simp only [List.all_cons, Bool.and_eq_true] at hl
    simp [List.takeWhile_cons, hl.1, ih hl.2]

theorem dropWhile_append_all (p : Char → Bool) (l t : List Char) (hl : l.all p = true) :
    (l ++ t).dropWhile p = t.dropWhile p := by
  induction l with
  | nil => simp
  | cons c rest ih =>
    simp only [List.all_cons, Bool.and_eq_true] at hl
    simp [List.dropWhile_cons, hl.1, ih hl.2]

theorem takeWhile_all (p : Char → Bool) (l : List Char) (hl : l.all p = true) :
    l.takeWhile p = l := by
  simpa using takeWhile_append_all p l [] hl

theorem dropWhile_all (p : Char → Bool) (l : List Char) (hl : l.all p = true) :
    l.dropWhile p = [] := by
  simpa using dropWhile_append_all p l [] hl

theorem digit_not_whitespace (c : Char) (h : c.isDigit = true) : c.isWhitespace = false := by
  cases hw : c.isWhitespace with
  | false => rfl
  | true =>
    exfalso
    simp only [Char.isWhitespace, Bool.or_eq_true, decide_eq_true_eq] at hw
    obtain ((h1 | h1) | h1) | h1 := hw <;> rw [h1] at h <;> exact absurd h (by decide)

theorem digit_beq_false (c d : Char) (h : c.isDigit = true) (hd : d.isDigit = false) :
    (c == d) = false := by
  cases hb : c == d with
  | false => rfl
  | true =>
    exfalso
    rw [beq_iff_eq] at hb
    rw [hb, hd] at h
    exact Bool.false_ne_true h

theorem foldl_digits (b : List Char) (init : Nat) :
    b.foldl (fun a c => 10 * a + (c.toNat - 48)) init = init * 10 ^ b.length + digitsVal b := by
  induction b generalizing init with
  | nil => simp [digitsVal]
  | cons c b ih =>
    have hd : digitsVal (c :: b) = (c.toNat - 48) * 10 ^ b.length + digitsVal b := by
      have h0 : digitsVal (c :: b) =
          b.foldl (fun a c => 10 * a + (c.toNat - 48)) (c.toNat - 48) := by
        simp [digitsVal]
      rw [h0, ih]
    simp only [List.foldl_cons, List.length_cons, hd]
    rw [ih]
    ring

theorem digitsVal_append (a b : List Char) :
    digitsVal (a ++ b) = digitsVal a * 10 ^ b.length + digitsVal b := by
  simp only [digitsVal, List.foldl_append]
  exact foldl_digits b _

theorem jsParseFloat_digits (ds : List Char) (h0 : ds ≠ []) (hd : allDigits ds = true) :
    jsParseFloat? (String.mk ds) = some ((digitsVal ds : Rat)) := by
  obtain ⟨c, rest, rfl⟩ : ∃ c rest, ds = c :: rest := by
    cases ds with
    | nil => exact absurd rfl h0
    | cons c rest => exact ⟨c, rest, rfl⟩
  have hc : c.isDigit = true := by
    simp only [allDigits, List.all_cons, Bool.and_eq_true] at hd
    exact hd.1
  have hws : (c :: rest).dropWhile Char.isWhitespace = c :: rest := by
    simp [List.dropWhile_cons, digit_not_whitespace c hc]
  have hneg : (c == '-') = false := digit_beq_false c '-' hc (by decide)
  have hplus : (c == '+') = false := digit_beq_false c '+' hc (by decide)
  have htake : (c :: rest).takeWhile Char.isDigit = c :: rest := takeWhile_all _ _ hd
  have hdrop : (c :: rest).dropWhile Char.isDigit = [] := dropWhile_all _ _ hd
  simp [jsParseFloat?, headIs, hws, hneg, hplus, htake, hdrop, expVal]

theorem jsParseFloat_decimal (a b : List Char) (h0 : a ≠ [])
    (h1 : allDigits a = true) (h2 : allDigits b = true) :
    jsParseFloat? (String.mk (a ++ '.' :: b)) =
      some ((digitsVal a : Rat) + (digitsVal b : Rat) / (10 : Rat) ^ b.length) := by
  obtain ⟨c, rest, rfl⟩ : ∃ c rest, a = c :: rest := by
    cases a with
    | nil => exact absurd rfl h0
    | cons c rest => exact ⟨c, rest, rfl⟩
  have hc : c.isDigit = true := by
    simp only [allDigits, List.all_cons, Bool.and_eq_true] at h1
    exact h1.1
  have hdot : Char.isDigit '.' = false := by decide
  have hws : (c :: (rest ++ '.' :: b)).dropWhile Char.isWhitespace =
      c :: (rest ++ '.' :: b) := by
    simp [List.dropWhile_cons, digit_not_whitespace c hc]
  have hneg : (c == '-') = false := digit_beq_false c '-' hc (by decide)
  have hplus : (c == '+') = false := digit_beq_false c '+' hc (by decide)
  have htake : (c :: (rest ++ '.' :: b)).takeWhile Char.isDigit = c :: rest := by
    simpa [List.cons_append, List.takeWhile_cons, hdot] using
      takeWhile_append_all Char.isDigit (c :: rest) ('.' :: b) h1
  have hdrop : (c :: (rest ++ '.' :: b)).dropWhile Char.isDigit = '.' :: b := by
    simpa [List.cons_append, List.dropWhile_cons, hdot] using
      dropWhile_append_all Char.isDigit (c :: rest) ('.' :: b) h1
  have htb : b.takeWhile Char.isDigit = b := takeWhile_all _ _ h2
  have hdb : b.dropWhile Char.isDigit = [] := dropWhile_all _ _ h2
  simp only [jsParseFloat?, headIs, List.cons_append, hws, hneg, hplus, htake, hdrop, htb,
    hdb, expVal, Bool.or_self, Bool.false_or, Bool.false_eq_true, if_false,
    List.isEmpty_cons, Bool.false_and, beq_self_eq_true, if_true, List.tail_cons,
    zpow_zero, mul_one, digitsVal_append]
  have hda : digitsVal (c :: (rest ++ b)) =
      digitsVal (c :: rest) * 10 ^ b.length + digitsVal b := by
    simpa [List.cons_append] using digitsVal_append (c :: rest) b
  rw [hda]
  have hpow : ((10 : Rat) ^ b.length) ≠ 0 := by positivity
  push_cast
  rw [add_div, mul_div_cancel_right₀ _ hpow]

/-! Claim theorems. -/

/-- C2 as stated is false at one input: with a@x.com already registered, a
second registration for a@x.com whose password is shorter than six
characters is refused with the InvalidInput message, not the DuplicateEmail
one (the status is still 400 and the store unchanged). -/
theorem C2_counterexample :
    (register (fun s => s) ⟨some "B", some "a@x.com", some "abc", none⟩
        [⟨"A", "a@x.com", "H", "user"⟩]).body =
      MsgBody.err "Password must be at least 6 characters" ∧
    MsgBody.err "Password must be at least 6 characters" ≠
      MsgBody.err "Email already registered" := by
  constructor
  · rfl
  · decide

/-- C2 (amended): if some record already has email e, every registration
request for e returns HTTP 400 with the store unchanged, and whenever the
request also passes input validation — the three fields non-empty and the
password at least six characters — the error body is exactly the
DuplicateEmail message. -/
theorem C2_duplicate_email (hash : String → String) (req : RegisterReq) (users : List UserRec)
    (hdup : ∃ u ∈ users, u.email = strVal req.email) :
    (register hash req users).status = 400 ∧
    (register hash req users).store = users ∧
    (falsy req.name = false → falsy req.email = false → falsy req.password = false →
      6 ≤ (strVal req.password).length →
      (register hash req users).body = MsgBody.err "Email already registered") := by
  have hany : users.any (fun u => u.email == strVal req.email) = true := by
    rw [List.any_eq_true]
    obtain ⟨u, hu, he⟩ := hdup
    exact ⟨u, hu, by simp [he]⟩
  unfold register
  by_cases h1 : (falsy req.name || falsy req.email || falsy req.password) = true
  · rw [if_pos h1]
    refine ⟨rfl, rfl, fun hn he hp _ => ?_⟩
    rw [hn, he, hp] at h1
    simp at h1
  · rw [if_neg h1]
    by_cases h2 : (strVal req.password).length < 6
    · rw [if_pos h2]
      refine ⟨rfl, rfl, fun _ _ _ hlen => absurd h2 (by omega)⟩
    · rw [if_neg h2, if_pos hany]
      exact ⟨rfl, rfl, fun _ _ _ _ => rfl⟩

/-- Witness: a valid duplicate registration is refused with the
DuplicateEmail message. -/
theorem C2_duplicate_email_witness :
    (register (fun s => s) ⟨some "B", some "a@x.com", some "abcdef", none⟩
        [⟨"A", "a@x.com", "H", "user"⟩]).body = MsgBody.err "Email already registered" :=
  (C2_duplicate_email (fun s => s) ⟨some "B", some "a@x.com", some "abcdef", none⟩
      [⟨"A", "a@x.com", "H", "user"⟩] ⟨⟨"A", "a@x.com", "H", "user"⟩, by decide, by decide⟩).2.2
    (by decide) (by decide) (by decide) (by decide)

/-- C3: a login that fails because no record has the given email and one
that fails because the stored hash does not match produce identical
responses — status 401 with the same error body — and leave the session
untouched, so the two causes are indistinguishable to the client. -/
theorem C3_login_indistinguishable (compare : String → String → Bool)
    (email password : Option String) (users : List UserRec) (sess : Option SessionUser)
    (hne : falsy email = false) (hnp : falsy password = false)
    (hfail : users.find? (fun u => u.email == strVal email) = none ∨
      ∃ u, users.find? (fun u => u.email == strVal email) = some u ∧
        compare (strVal password) u.password = false) :
    login compare email password users sess =
      ⟨401, .err "Invalid email or password", sess⟩ := by
  unfold login
  rw [hne, hnp]
  simp only [Bool.or_self, Bool.false_eq_true, if_false]
  rcases hfail with hnone | ⟨u, hfind, hcmp⟩
  · rw [hnone]
  · rw [hfind]
    simp [hcmp]

/-- Witness: an unknown email is refused exactly like a wrong password. -/
theorem C3_login_indistinguishable_witness :
    login (fun _ _ => false) (some "b@x.com") (some "secret1")
        [⟨"A", "a@x.com", "H", "user"⟩] none =
      ⟨401, .err "Invalid email or password", none⟩ :=
  C3_login_indistinguishable (fun _ _ => false) (some "b@x.com") (some "secret1")
    [⟨"A", "a@x.com", "H", "user"⟩] none (by decide) (by decide) (Or.inl (by decide))

/-- C6 as stated is false at one input: a non-admin session holder deleting
their own email is refused 403 by the admin gate, not 400. -/
theorem C6_counterexample :
    (deleteUser (some ⟨"B", "b@x.com", "user"⟩) "b@x.com"
        [⟨"B", "b@x.com", "H", "user"⟩]).status = 403 ∧ (403 : Nat) ≠ 400 := by
  constructor
  · rfl
  · decide

/-- C6 (amended): for an admin session, a DELETE of the session's own email
always returns 400 with the store unchanged — also when no record has that
email — while for a non-admin session the request is refused 403 by the
gate, again with the store unchanged. -/
theorem C6_self_delete (sess : Option SessionUser) (u : SessionUser) (users : List UserRec)
    (hu : sess = some u) :
    (u.role = "admin" →
      deleteUser sess u.email users = ⟨400, .err "Cannot delete your own account", users⟩) ∧
    (u.role ≠ "admin" →
      deleteUser sess u.email users = ⟨403, .err "Admin privileges required", users⟩) := by
  subst hu
  constructor
  · intro hadmin
    simp [deleteUser, adminGate, hadmin]
  · intro hnadmin
    simp [deleteUser, adminGate, hnadmin]

/-- Witness: an admin self-delete on a store without that email still
returns 400 and changes nothing. -/
theorem C6_self_delete_witness :
    deleteUser (some ⟨"A", "a@x.com", "admin"⟩) "a@x.com" [] =
      ⟨400, .err "Cannot delete your own account", []⟩ :=
  (C6_self_delete (some ⟨"A", "a@x.com", "admin"⟩) ⟨"A", "a@x.com", "admin"⟩ [] rfl).1 rfl

/-- C7: on admin routes a request without a session is rejected 401 by
isAuthenticated and a session whose cached role is not admin is rejected 403
by isAdmin; the decision reads only the session, so the status of
GET /api/users is the same over any two users stores — in particular a
store-side role update never affects an existing session. -/
theorem C7_admin_gates (sess : Option SessionUser) (u : SessionUser) :
    (adminGate none = .error (401, "Not authenticated")) ∧
    (sess = some u → u.role ≠ "admin" →
      adminGate sess = .error (403, "Admin privileges required")) ∧
    (∀ users1 users2 : List UserRec,
      (getUsers sess users1).status = (getUsers sess users2).status) := by
  refine ⟨rfl, ?_, ?_⟩
  · rintro rfl hrole
    simp [adminGate, hrole]
  · intro users1 users2
    unfold getUsers
    cases hg : adminGate sess with
    | error p =>
      obtain ⟨st, e⟩ := p
      rfl
    | ok w => rfl

/-- Witness: a non-admin session is refused 403 by the gate. -/
theorem C7_admin_gates_witness :
    adminGate (some ⟨"B", "b@x.com", "user"⟩) = .error (403, "Admin privileges required") :=
  (C7_admin_gates (some ⟨"B", "b@x.com", "user"⟩) ⟨"B", "b@x.com", "user"⟩).2.1 rfl (by decide)


/-- Store left by a successful registration: the input records followed by
the new record carrying the hashed password and role user. -/
theorem register_success_store (hash : String → String) (req : RegisterReq)
    (users : List UserRec) (hok : (register hash req users).status = 200) :
    (register hash req users).store =
      users ++ [⟨strVal req.name, strVal req.email, hash (strVal req.password), "user"⟩] := by
  unfold register at hok ⊢
  by_cases h1 : (falsy req.name || falsy req.email || falsy req.password) = true
  · rw [if_pos h1] at hok
    simp at hok
  · rw [if_neg h1] at hok ⊢
    by_cases h2 : (strVal req.password).length < 6
    · rw [if_pos h2] at hok
      simp at hok
    · rw [if_neg h2] at hok ⊢
      by_cases h3 : (users.any (fun u => u.email == strVal req.email)) = true
      · rw [if_pos h3] at hok
        simp at hok
      · rw [if_neg h3]

/-- Store left by a successful admin add: the input records followed by the
new record, whose role is the supplied one unless absent or empty. -/
theorem addUser_success_store (hash : String → String) (sess : Option SessionUser)
    (req : AddUserReq) (users : List UserRec)
    (hok : (addUser hash sess req users).status = 200) :
    (addUser hash sess req users).store =
      users ++ [⟨strVal req.name, strVal req.email, hash (strVal req.password),
        if falsy req.role then "user" else strVal req.role⟩] := by
  cases sess with
  | none => simp [addUser, adminGate] at hok
  | some u =>
    by_cases hrole : (u.role == "admin") = true
    · simp only [addUser, adminGate, hrole, if_true] at hok ⊢
      by_cases h1 : (falsy req.name || falsy req.email || falsy req.password) = true
      · rw [if_pos h1] at hok
        simp at hok
      · rw [if_neg h1] at hok ⊢
        by_cases h2 : (strVal req.password).length < 6
        · rw [if_pos h2] at hok
          simp at hok
        · rw [if_neg h2] at hok ⊢
          by_cases h3 : (users.any (fun u => u.email == strVal req.email)) = true
          · rw [if_pos h3] at hok
            simp at hok
          · rw [if_neg h3]
    · rw [Bool.not_eq_true] at hrole
      simp [addUser, adminGate, hrole] at hok

/-- C9: GET /api/users serialises exactly name, email and role of each
record — for an admin session its payload is the pointwise projection to
those three fields, and the whole response is invariant under arbitrary
rewriting of the password column, so the password is never serialised —
and a successful registration persists exactly the bcrypt hash of the
submitted password (hash standing for the salted one-way bcrypt.hash),
never the plaintext. -/
theorem C9_password_never_serialized (sess : Option SessionUser) (users : List UserRec) :
    (isAdminSess sess = true →
      getUsers sess users =
        ⟨200, some (users.map (fun u => ⟨u.name, u.email, u.role⟩)), none⟩) ∧
    (∀ pw : UserRec → String,
      getUsers sess (users.map (fun u => ⟨u.name, u.email, pw u, u.role⟩)) =
        getUsers sess users) ∧
    (∀ (hash : String → String) (req : RegisterReq),
      (register hash req users).status = 200 →
      (register hash req users).store =
        users ++ [⟨strVal req.name, strVal req.email, hash (strVal req.password), "user"⟩]) := by
  refine ⟨?_, ?_, fun hash req hok => register_success_store hash req users hok⟩
  · intro hadm
    cases sess with
    | none => exact absurd hadm (by simp [isAdminSess])
    | some u =>
      have hrole : (u.role == "admin") = true := by simpa [isAdminSess] using hadm
      simp [getUsers, adminGate, hrole]
  · intro pw
    unfold getUsers
    cases hg : adminGate sess with
    | error p =>
      obtain ⟨st, e⟩ := p
      rfl
    | ok w =>
      simp only [List.map_map]
      rfl

/-- Witness: a successful registration stores the hash of the password. -/
theorem C9_password_never_serialized_witness :
    (register (fun s => s ++ "#h") ⟨some "A", some "a@x.com", some "abcdef", none⟩ []).store =
      [] ++ [⟨strVal (some "A"), strVal (some "a@x.com"),
        (fun s => s ++ "#h") (strVal (some "abcdef")), "user"⟩] :=
  (C9_password_never_serialized none []).2.2 (fun s => s ++ "#h")
    ⟨some "A", some "a@x.com", some "abcdef", none⟩ (by decide)

/-- C10: POST /api/register never reads a role field from the body — two
requests differing only in that field behave identically — and a successful
registration appends a record whose role is user; by contrast a successful
POST /api/users/add with a non-empty role field appends a record carrying
exactly the supplied role. -/
theorem C10_registration_role (hash : String → String) (users : List UserRec)
    (name email password r1 r2 : Option String) :
    (register hash ⟨name, email, password, r1⟩ users =
      register hash ⟨name, email, password, r2⟩ users) ∧
    ((register hash ⟨name, email, password, r1⟩ users).status = 200 →
      ∃ rec, (register hash ⟨name, email, password, r1⟩ users).store = users ++ [rec] ∧
        rec.role = "user") ∧
    (∀ (sess : Option SessionUser) (r : Option String), falsy r = false →
      (addUser hash sess ⟨name, email, password, r⟩ users).status = 200 →
      ∃ rec, (addUser hash sess ⟨name, email, password, r⟩ users).store = users ++ [rec] ∧
        rec.role = strVal r) := by
  refine ⟨rfl, ?_, ?_⟩
  · intro hok
    exact ⟨⟨strVal name, strVal email, hash (strVal password), "user"⟩,
      register_success_store hash ⟨name, email, password, r1⟩ users hok, rfl⟩
  · intro sess r hr hok
    refine ⟨⟨strVal name, strVal email, hash (strVal password),
      if falsy r then "user" else strVal r⟩,
      addUser_success_store hash sess ⟨name, email, password, r⟩ users hok, ?_⟩
    simp [hr]

/-- Witness: an admin add carrying role admin stores role admin. -/
theorem C10_registration_role_witness :
    ∃ rec, (addUser (fun s => s) (some ⟨"R", "r@x.com", "admin"⟩)
        ⟨some "N", some "n@x.com", some "abcdef", some "admin"⟩ []).store = [] ++ [rec] ∧
      rec.role = strVal (some "admin") :=
  (C10_registration_role (fun s => s) [] (some "N") (some "n@x.com") (some "abcdef")
      none none).2.2 (some ⟨"R", "r@x.com", "admin"⟩) (some "admin") (by decide) (by decide)

/-- Dropping all but the last n elements is taking n from the reversed list,
reversed back. -/
theorem drop_length_sub {α : Type} (l : List α) (n : Nat) :
    l.drop (l.length - n) = (l.reverse.take n).reverse := by
  simpa [List.rtake] using List.rtake_eq_reverse_take_reverse (l := l) (n := n)

/-- C4: for an authenticated session, GET /api/sensors on a non-empty feeds
store returns 200 with history the last 20 processed readings in arrival
order, recent the last 10 in reverse arrival order, and latest the three
fields and timestamp of the most recent reading; on the empty store it
returns empty history, recent and latest. -/
theorem C4_sensor_windows (sess : Option SessionUser) (feeds : List FeedRec)
    (hs : isAuthenticated sess = true) :
    (feeds ≠ [] →
      getSensors sess feeds =
        ⟨200, some ⟨((feeds.map processFeed).reverse.head?).map
            (fun l => ⟨l.field1, l.field2, l.field3, l.timestamp⟩),
          ((feeds.map processFeed).reverse.take 20).reverse,
          (feeds.map processFeed).reverse.take 10⟩⟩) ∧
    (feeds = [] → getSensors sess feeds = ⟨200, some ⟨none, [], []⟩⟩) := by
  constructor
  · intro hne
    have hemp : ¬(feeds.isEmpty = true) := by simpa [List.isEmpty_iff] using hne
    simp only [getSensors, hs, if_true, if_neg hemp]
    rw [drop_length_sub, drop_length_sub, List.reverse_reverse, List.head?_reverse]
  · intro he
    subst he
    simp [getSensors, hs]

/-- Witness: with 25 appended readings the windows are the last 20 and the
reversed last 10. -/
theorem C4_sensor_windows_witness :
    getSensors (some ⟨"A", "a@x.com", "user"⟩) feeds25 =
      ⟨200, some ⟨((feeds25.map processFeed).reverse.head?).map
          (fun l => ⟨l.field1, l.field2, l.field3, l.timestamp⟩),
        ((feeds25.map processFeed).reverse.take 20).reverse,
        (feeds25.map processFeed).reverse.take 10⟩⟩ :=
  (C4_sensor_windows (some ⟨"A", "a@x.com", "user"⟩) feeds25 rfl).1 (by decide)

/-- A list whose digit prefix is empty is untouched by dropping digits. -/
theorem dropWhile_eq_self_of_takeWhile_nil (p : Char → Bool) (t : List Char)
    (h : t.takeWhile p = []) : t.dropWhile p = t := by
  cases t with
  | nil => rfl
  | cons c t =>
    rw [List.takeWhile_cons] at h
    by_cases hc : p c = true
    · rw [if_pos hc] at h
      exact absurd h (by simp)
    · rw [List.dropWhile_cons, if_neg hc]

/-- parseFloat on digits followed by junk that is neither a digit nor a
point: the digit prefix is parsed and the junk contributes only a possible
exponent suffix. -/
theorem jsParseFloat_digits_prefix (ds t : List Char) (h0 : ds ≠ [])
    (hd : allDigits ds = true) (htd : t.takeWhile Char.isDigit = [])
    (hdot : headIs '.' t = false) :
    jsParseFloat? (String.mk (ds ++ t)) =
      some ((digitsVal ds : Rat) * (10 : Rat) ^ expVal t) := by
  obtain ⟨c, rest, rfl⟩ : ∃ c rest, ds = c :: rest := by
    cases ds with
    | nil => exact absurd rfl h0
    | cons c rest => exact ⟨c, rest, rfl⟩
  have hc : c.isDigit = true := by
    simp only [allDigits, List.all_cons, Bool.and_eq_true] at hd
    exact hd.1
  have hws : (c :: (rest ++ t)).dropWhile Char.isWhitespace = c :: (rest ++ t) := by
    simp [List.dropWhile_cons, digit_not_whitespace c hc]
  have hneg : (c == '-') = false := digit_beq_false c '-' hc (by decide)
  have hplus : (c == '+') = false := digit_beq_false c '+' hc (by decide)
  have htake : (c :: (rest ++ t)).takeWhile Char.isDigit = c :: rest := by
    simpa [List.cons_append, htd] using takeWhile_append_all Char.isDigit (c :: rest) t hd
  have hdrop : (c :: (rest ++ t)).dropWhile Char.isDigit = t := by
    simpa [List.cons_append, dropWhile_eq_self_of_takeWhile_nil Char.isDigit t htd] using
      dropWhile_append_all Char.isDigit (c :: rest) t hd
  simp only [jsParseFloat?, headIs, List.cons_append, hws, hneg, hplus, htake, hdrop,
    Bool.or_self, Bool.false_or, Bool.false_eq_true, if_false, List.isEmpty_cons,
    Bool.false_and, List.append_nil, List.length_nil, pow_zero, div_one]
  cases t with
  | nil => simp [headIs, expVal]
  | cons d t2 =>
    have hdne : (d == '.') = false := by simpa [headIs] using hdot
    have hdne2 : ¬(d = '.') := by simpa using hdne
    rw [if_neg (by simp [hdne])]
    simp [hdne2]

/-- C8 as stated is false at one input: the string 12abc is not a numeric
literal, yet the sensor endpoint coerces it to 12, not 0, because parseFloat
takes the value of the longest numeric prefix. -/
theorem C8_counterexample :
    (processFeed ⟨some "t", some "1", some "12abc", none, some "abc"⟩).field1 = 12 ∧
    isNumericLit "12abc" = false ∧ (12 : Rat) ≠ 0 := by
  refine ⟨?_, by decide, by norm_num⟩
  show jsNum (some "12abc") = 12
  have heq : ("12abc" : String) = String.mk (['1', '2'] ++ ['a', 'b', 'c']) := rfl
  have h12 := jsParseFloat_digits_prefix ['1', '2'] ['a', 'b', 'c']
    (by decide) (by decide) (by decide) (by decide)
  have hdv : digitsVal ['1', '2'] = 12 := by decide
  have hexp : expVal ['a', 'b', 'c'] = 0 := by decide
  rw [jsNum, heq, h12, hdv, hexp]
  norm_num

/-- C8 (amended): in the GET /api/sensors output each numeric field is the
parseFloat coercion of the stored string with NaN replaced by 0: a missing
field, or one whose string parseFloat cannot read at all, becomes 0; a
string that is a bare digit sequence or a digit sequence with a decimal
point becomes its decimal value; in general the value of the longest
numeric prefix is used, so a non-numeric string with a numeric prefix does
not become 0. -/
theorem C8_numeric_coercion :
    (∀ f : FeedRec, (processFeed f).field1 = jsNum f.field1 ∧
      (processFeed f).field2 = jsNum f.field2 ∧ (processFeed f).field3 = jsNum f.field3) ∧
    (jsNum none = 0) ∧
    (∀ s, jsParseFloat? s = none → jsNum (some s) = 0) ∧
    (∀ ds, ds ≠ [] → allDigits ds = true →
      jsNum (some (String.mk ds)) = (digitsVal ds : Rat)) ∧
    (∀ a b, a ≠ [] → allDigits a = true → allDigits b = true →
      jsNum (some (String.mk (a ++ '.' :: b))) =
        (digitsVal a : Rat) + (digitsVal b : Rat) / (10 : Rat) ^ b.length) := by
  refine ⟨fun f => ⟨rfl, rfl, rfl⟩, rfl, ?_, ?_, ?_⟩
  · intro s hs
    simp [jsNum, hs]
  · intro ds h0 hd
    simp [jsNum, jsParseFloat_digits ds h0 hd]
  · intro a b h0 h1 h2
    simp [jsNum, jsParseFloat_decimal a b h0 h1 h2]

/-- Witness: the plain decimal 2.5 is coerced to five halves. -/
theorem C8_numeric_coercion_witness :
    jsNum (some (String.mk (['2'] ++ '.' :: ['5']))) =
      (digitsVal ['2'] : Rat) + (digitsVal ['5'] : Rat) / (10 : Rat) ^ (['5'] : List Char).length :=
  C8_numeric_coercion.2.2.2.2 ['2'] ['5'] (by decide) (by decide) (by decide)

/-- Replacing one role with a value from the enum preserves the role
invariant. -/
theorem rolesOk_setRoleAt (r : String) (hr : r = "user" ∨ r = "admin") :
    ∀ (i : Nat) (users : List UserRec), rolesOk users → rolesOk (setRoleAt r i users)
  | _, [], _ => by simp [setRoleAt, rolesOk]
  | 0, u :: us, h => by
    intro x hx
    rcases List.mem_cons.mp hx with hxu | hxs
    · subst hxu
      exact hr
    · exact h x (List.mem_cons_of_mem u hxs)
  | n + 1, u :: us, h => by
    intro x hx
    rcases List.mem_cons.mp hx with hxu | hxs
    · rw [hxu]
      exact h u (List.mem_cons_self u us)
    · exact rolesOk_setRoleAt r hr n us (fun y hy => h y (List.mem_cons_of_mem u hy)) x hxs

/-- One request preserves the role invariant provided an add request carries
only an absent, empty, user or admin role. -/
theorem rolesOk_applyOp (hash : String → String) (users : List UserRec) (op : StoreOp)
    (h : rolesOk users) (hop : opRoleOk op = true) :
    rolesOk (applyOp hash users op) := by
  cases op with
  | reg req =>
    show rolesOk (register hash req users).store
    unfold register
    split_ifs with h1 h2 h3
    · exact h
    · exact h
    · exact h
    · intro x hx
      rcases List.mem_append.mp hx with hxs | hxnew
      · exact h x hxs
      · have hx2 := List.mem_singleton.mp hxnew
        subst hx2
        exact Or.inl rfl
  | add sess req =>
    show rolesOk (addUser hash sess req users).store
    cases sess with
    | none => exact h
    | some u =>
      by_cases hrole : (u.role == "admin") = true
      · simp only [addUser, adminGate, hrole, if_true]
        split_ifs with h1 h2 h3 hf
        · exact h
        · exact h
        · exact h
        · intro x hx
          rcases List.mem_append.mp hx with hxs | hxnew
          · exact h x hxs
          · have hx2 := List.mem_singleton.mp hxnew
            subst hx2
            exact Or.inl rfl
        · intro x hx
          rcases List.mem_append.mp hx with hxs | hxnew
          · exact h x hxs
          · have hx2 := List.mem_singleton.mp hxnew
            subst hx2
            rw [Bool.not_eq_true] at hf
            simp only [opRoleOk, hf, Bool.false_or, Bool.or_eq_true, beq_iff_eq] at hop
            exact hop
      · rw [Bool.not_eq_true] at hrole
        simp only [addUser, adminGate, hrole, Bool.false_eq_true, if_false]
        exact h
  | upd sess e r =>
    show rolesOk (updateRole sess e r users).store
    cases sess with
    | none => exact h
    | some u =>
      by_cases hrole : (u.role == "admin") = true
      · simp only [updateRole, adminGate, hrole, if_true]
        by_cases hv : (falsy r || !(strVal r == "user" || strVal r == "admin")) = true
        · rw [if_pos hv]
          exact h
        · rw [if_neg hv]
          have hr2 : strVal r = "user" ∨ strVal r = "admin" := by
            simp only [Bool.or_eq_true, Bool.not_eq_true, not_or, Bool.not_eq_true',
              Bool.not_eq_false, beq_iff_eq] at hv
            rcases hv with ⟨h1, h2⟩
            simpa using h2
          cases hidx : users.findIdx? (fun x => x.email == e) with
          | none => exact h
          | some i => exact rolesOk_setRoleAt (strVal r) hr2 i users h
      · rw [Bool.not_eq_true] at hrole
        simp only [updateRole, adminGate, hrole, Bool.false_eq_true, if_false]
        exact h
  | del sess e =>
    show rolesOk (deleteUser sess e users).store
    cases sess with
    | none => exact h
    | some u =>
      by_cases hrole : (u.role == "admin") = true
      · simp only [deleteUser, adminGate, hrole, if_true]
        split_ifs with h1 h2
        · exact h
        · exact h
        · intro x hx
          exact h x (List.mem_of_mem_filter hx)
      · rw [Bool.not_eq_true] at hrole
        simp only [deleteUser, adminGate, hrole, Bool.false_eq_true, if_false]
        exact h

/-- C1 as stated is false at one input: an admin add request carrying role
root is stored verbatim by POST /api/users/add, leaving a record whose role
is outside the user/admin enum. -/
theorem C1_counterexample :
    rolesOk [⟨"A", "a@x.com", "H", "admin"⟩] ∧
    ¬ rolesOk (applyOp (fun s => s) [⟨"A", "a@x.com", "H", "admin"⟩]
      (.add (some ⟨"A", "a@x.com", "admin"⟩)
        ⟨some "N", some "n@x.com", some "abcdef", some "root"⟩)) := by
  constructor
  · decide
  · decide

/-- C1 (amended): starting from a store whose roles all lie in the enum,
every sequence of register, admin-add, role-update and delete requests
preserves that invariant provided each add request's role field is absent,
empty, user or admin; the proviso is necessary, since a single add request
with another role string violates the invariant. -/
theorem C1_roles_invariant (hash : String → String) :
    ∀ (ops : List StoreOp) (init : List UserRec), rolesOk init →
      (∀ op ∈ ops, opRoleOk op = true) → rolesOk (ops.foldl (applyOp hash) init)
  | [], _, h0, _ => h0
  | op :: ops, init, h0, hops => by
    simp only [List.foldl_cons]
    exact C1_roles_invariant hash ops (applyOp hash init op)
      (rolesOk_applyOp hash init op h0 (hops op (List.mem_cons_self op ops)))
      (fun o ho => hops o (List.mem_cons_of_mem op ho))

/-- Witness: a registration (whose body even carries role root, which is
ignored), a role update to admin and a delete, applied to the seeded store,
keep every role in the enum. -/
theorem C1_roles_invariant_witness :
    rolesOk ([StoreOp.reg ⟨some "B", some "b@x.com", some "abcdef", some "root"⟩,
      StoreOp.upd (some ⟨"A", "a@x.com", "admin"⟩) "b@x.com" (some "admin"),
      StoreOp.del (some ⟨"A", "a@x.com", "admin"⟩) "b@x.com"].foldl
        (applyOp (fun s => s)) [⟨"A", "a@x.com", "H", "admin"⟩]) :=
  C1_roles_invariant (fun s => s)
    [StoreOp.reg ⟨some "B", some "b@x.com", some "abcdef", some "root"⟩,
      StoreOp.upd (some ⟨"A", "a@x.com", "admin"⟩) "b@x.com" (some "admin"),
      StoreOp.del (some ⟨"A", "a@x.com", "admin"⟩) "b@x.com"]
    [⟨"A", "a@x.com", "H", "admin"⟩] (by decide) (by decide)
